import Mathlib

/-!
# Verification development for the tg-id-bot repository

Shallow embedding of the bot's core logic (src/utils.py, src/db.py, src/bot.py)
and proofs about it.  Text is modelled as `List Char`, SQL tables as Lean lists
of row structures, machine timestamps as `Int`, and the stateful handlers as
pure state-passing functions.  Each claim of the specification is settled by a
theorem at the end of the file.
-/

namespace TgIdBot

/-! ## Identifier extraction (src/utils.py, `extract_male_ids`)

The source uses the regex `(?<!\d)(\d{10})(?!\d)` with `findall`: a match is a
run of exactly ten digits that is neither preceded nor followed by a digit,
i.e. a maximal digit run of length ten.  We embed `findall` as a left-to-right
scanner that first collects all maximal digit runs and then keeps those of
length ten.  `digitRunsAux` carries the digits of the current (reversed)
partial run, exactly as a single left-to-right pass of the regex engine does.
-/

/-- One left-to-right pass collecting maximal runs of decimal digits.
`acc` holds the current run, reversed. -/
def digitRunsAux : List Char → List Char → List (List Char)
  | [], acc => if acc.isEmpty then [] else [acc.reverse]
  | c :: rest, acc =>
    if c.isDigit then digitRunsAux rest (c :: acc)
    else if acc.isEmpty then digitRunsAux rest []
    else acc.reverse :: digitRunsAux rest []

/-- All maximal runs of decimal digits of a character sequence, in order. -/
def digitRuns (s : List Char) : List (List Char) := digitRunsAux s []

/-- `utils.extract_male_ids`: the 10-digit identifiers found in `text`,
in order of occurrence (the regex `(?<!\d)(\d{10})(?!\d)` keeps exactly the
maximal digit runs of length ten). -/
def extract_male_ids (s : List Char) : List (List Char) :=
  (digitRuns s).filter (fun r => r.length == 10)

/-- Every character of `r` is a decimal digit. -/
def allDigits (r : List Char) : Prop := ∀ c ∈ r, c.isDigit = true

/-- `r` occurs in `s` bounded by non-digit characters or the string edges. -/
def boundedRun (s r : List Char) : Prop :=
  ∃ pre post, s = pre ++ r ++ post ∧
    (∀ c, pre.getLast? = some c → c.isDigit = false) ∧
    (∀ c, post.head? = some c → c.isDigit = false)

/-! ## Message index, subject links and registered chats (src/db.py)

Rows of the `messages`, `message_male_ids` and `allowed_chats` tables.
Columns that no claim touches (sender, media, forward flag, ...) are omitted;
`id` is the AUTOINCREMENT insertion id of `messages`, `date` the message
timestamp (a float in the source, integral here). -/

structure MsgRow where
  id : Nat
  chat_id : Int
  message_id : Int
  date : Int
  text : List Char
deriving DecidableEq

/-- A row of `allowed_chats` (chat registration).  `chat_id` is the table's
key (`add_allowed_chat` uses INSERT OR REPLACE on it). -/
structure ChatRow where
  chat_id : Int
  title : List Char
  female_id : List Char
deriving DecidableEq

/-- The persistent state the message-index claims range over: `messages`,
`message_male_ids` (pairs of message insertion id and 10-digit token, unique
per pair: `link_male_ids` deduplicates and inserts with INSERT OR IGNORE),
and `allowed_chats` in registration order (oldest first). -/
structure DbState where
  messages : List MsgRow
  links : List (Nat × List Char)
  chats : List ChatRow
deriving DecidableEq

/-- `db.get_allowed_chat`: the registration row for a chat id, if any. -/
def get_allowed_chat (chats : List ChatRow) (cid : Int) : Option ChatRow :=
  chats.find? (fun c => c.chat_id == cid)

/-- The `SELECT id FROM messages WHERE chat_id=? AND message_id=?` lookup. -/
def find_message (msgs : List MsgRow) (cid mid : Int) : Option MsgRow :=
  msgs.find? (fun m => m.chat_id == cid && m.message_id == mid)

/-- `db.update_message_text`: UPDATE messages SET text=? WHERE chat_id=? AND
message_id=?. -/
def update_message_text (msgs : List MsgRow) (cid mid : Int) (text : List Char) :
    List MsgRow :=
  msgs.map (fun m =>
    if m.chat_id == cid && m.message_id == mid then { m with text := text } else m)

/-- `db.unlink_all_male_ids`: DELETE FROM message_male_ids WHERE
message_id_ref=?. -/
def unlink_all_male_ids (links : List (Nat × List Char)) (ref : Nat) :
    List (Nat × List Char) :=
  links.filter (fun l => !(l.1 == ref))

/-- `db.link_male_ids`: `for mid in set(male_ids): INSERT OR IGNORE ...`.
Iterating the raw list with an insert-if-absent step gives the same table
content as iterating Python's `set(male_ids)`, because the second insert of a
pair is a no-op either way. -/
def link_male_ids (links : List (Nat × List Char)) (ref : Nat)
    (mids : List (List Char)) : List (Nat × List Char) :=
  mids.foldl (fun L mid => if (ref, mid) ∈ L then L else L ++ [(ref, mid)]) links

/-- `bot.on_group_edited`: ignore edits in unregistered chats and edits to
unknown messages; otherwise replace the stored text and rebuild the links
from the freshly extracted tokens. -/
def on_group_edited (s : DbState) (cid mid : Int) (text : List Char) : DbState :=
  match get_allowed_chat s.chats cid with
  | none => s
  | some _ =>
    match find_message s.messages cid mid with
    | none => s
    | some row =>
      { s with
        messages := update_message_text s.messages cid mid text,
        links := link_male_ids (unlink_all_male_ids s.links row.id) row.id
          (extract_male_ids text) }

/-! ## Retrieval (src/db.py, `search_by_male`)

The query joins `messages` with `message_male_ids` on the searched token,
LEFT JOINs `allowed_chats` for the optional group filter, optionally bounds
the timestamp (`m.date >= ?`), orders by `m.date DESC` and applies
LIMIT/OFFSET.  Since `(message_id_ref, male_id)` pairs are unique and
`chat_id` is the key of `allowed_chats`, the join is modelled as a filter
over `messages`. -/

def matchesSearch (s : DbState) (male : List Char) (ff : Option (List Char))
    (since : Option Int) (m : MsgRow) : Bool :=
  decide ((m.id, male) ∈ s.links) &&
  (match ff with
   | none => true
   | some f =>
     match get_allowed_chat s.chats m.chat_id with
     | none => false
     | some c => c.female_id == f) &&
  (match since with
   | none => true
   | some ts => ts ≤ m.date)

/-- Result ordering: timestamp descending.  `ORDER BY m.date DESC` is in the
source query; the source specifies no secondary sort key, so the order among
equal timestamps is decided by the engine and schema (messages.sql, not part
of src/).  Modelled from the spec: ties are broken by the stable insertion id
ascending. -/
def resultOrder (a b : MsgRow) : Prop :=
  b.date < a.date ∨ (a.date = b.date ∧ a.id ≤ b.id)

instance resultOrderDec : DecidableRel resultOrder := fun a b => by
  unfold resultOrder
  infer_instance

instance resultOrderTotal : IsTotal MsgRow resultOrder :=
  ⟨by intro a b; unfold resultOrder; omega⟩

instance resultOrderTrans : IsTrans MsgRow resultOrder :=
  ⟨by intro a b c; unfold resultOrder; omega⟩

/-- `db.search_by_male`: filter, order, then OFFSET/LIMIT. -/
def search_by_male (s : DbState) (male : List Char) (limit offset : Nat)
    (ff : Option (List Char)) (since : Option Int) : List MsgRow :=
  ((List.insertionSort resultOrder
      (s.messages.filter (matchesSearch s male ff since))).drop offset).take limit

/-! ## The allowed_users table (src/db.py)

Rows carry `user_id` (key), `username_lc`, `added_by`, `credits` and
`banned_until`.  `banned_until` is stored as a local-time string and read
back through `strptime`/`mktime`; that round trip is the identity on
representable times, so it is modelled as the timestamp itself. -/

structure UserRow where
  user_id : Int
  username_lc : Option (List Char)
  added_by : Option Int
  credits : Int
  banned_until : Option Int
deriving DecidableEq

/-- `db.add_allowed_user`: INSERT ... ON CONFLICT(user_id) DO UPDATE SET
username_lc, credits (only raised, never lowered) and added_by — it does not
touch banned_until. -/
def add_allowed_user (tbl : List UserRow) (uid : Int) (uname : Option (List Char))
    (addedBy : Int) (credits : Int) : List UserRow :=
  if tbl.any (fun r => r.user_id == uid) then
    tbl.map (fun r =>
      if r.user_id == uid then
        { r with
          username_lc := uname,
          credits := if r.credits < credits then credits else r.credits,
          added_by := some addedBy }
      else r)
  else
    tbl ++ [{ user_id := uid, username_lc := uname, added_by := some addedBy,
              credits := credits, banned_until := none }]

/-- `db.remove_allowed_user`: DELETE FROM allowed_users WHERE user_id=?. -/
def remove_allowed_user (tbl : List UserRow) (uid : Int) : List UserRow :=
  tbl.filter (fun r => !(r.user_id == uid))

/-- `db.set_user_ban`: INSERT INTO allowed_users(user_id, banned_until) ...
ON CONFLICT(user_id) DO UPDATE SET banned_until=excluded.banned_until.  A
fresh row gets the schema defaults for the remaining columns (the default
credits value does not matter to any claim; 0 is used here). -/
def set_user_ban (tbl : List UserRow) (uid : Int) (bannedUntil : Int) : List UserRow :=
  if tbl.any (fun r => r.user_id == uid) then
    tbl.map (fun r =>
      if r.user_id == uid then { r with banned_until := some bannedUntil } else r)
  else
    tbl ++ [{ user_id := uid, username_lc := none, added_by := none,
              credits := 0, banned_until := some bannedUntil }]

/-- `db.is_allowed_user`: presence of a row in allowed_users. -/
def is_allowed_user (tbl : List UserRow) (uid : Int) : Bool :=
  tbl.any (fun r => r.user_id == uid)

/-- `db.get_user_ban`: the stored banned_until timestamp, if any. -/
def get_user_ban (tbl : List UserRow) (uid : Int) : Option Int :=
  match tbl.find? (fun r => r.user_id == uid) with
  | none => none
  | some r => r.banned_until

/-! ## Conversation flows (src/bot.py module-level state dictionaries)

One actor's view of REPORT_STATE, LEGEND_STATE, LEGEND_VIEW_STATE,
MALE_SEARCH_STATE and GUEST_REPORT_STATE (the dictionaries are keyed by
actor id and handlers only touch the calling actor's entry).  A field is
`none`/`false` when the actor has no entry awaiting input in that
dictionary.  MALE_SEARCH_STATE entries whose `stage` is `None` await no
input and are not an active flow, so only the awaiting stages appear. -/

inductive ReportStage | wait_female | wait_text
deriving DecidableEq

inductive LegendMode | add | edit
deriving DecidableEq

inductive LegendStage | wait_female | wait_text
deriving DecidableEq

inductive MaleSearchStage | wait_female_filter | wait_female_manual | wait_period_filter
deriving DecidableEq

inductive GuestStage | wait_female | wait_male
deriving DecidableEq

structure FlowsState where
  report : Option ReportStage
  legend : Option (LegendMode × LegendStage)
  legendView : Bool
  maleSearch : Option MaleSearchStage
  guestReport : Option GuestStage
deriving DecidableEq

/-- Number of simultaneously active flows of an actor. -/
def activeFlows (f : FlowsState) : Nat :=
  (if f.report.isSome then 1 else 0) + (if f.legend.isSome then 1 else 0) +
  (if f.legendView then 1 else 0) + (if f.maleSearch.isSome then 1 else 0) +
  (if f.guestReport.isSome then 1 else 0)

/-- The actor state with no flow active. -/
def noFlows : FlowsState :=
  { report := none, legend := none, legendView := false, maleSearch := none,
    guestReport := none }

/-- `bot.report_start`: pops only GUEST_REPORT_STATE, then starts the report
flow. -/
def report_start (f : FlowsState) : FlowsState :=
  { f with guestReport := none, report := some ReportStage.wait_female }

/-- `bot.legend_view_start`: pops only GUEST_REPORT_STATE, then starts the
legend-view flow. -/
def legend_view_start (f : FlowsState) : FlowsState :=
  { f with guestReport := none, legendView := true }

/-- `bot.guest_pair_search_start`: a no-op for admins and allow-listed users;
otherwise pops the four other flow dictionaries and starts the guest pair
search flow. -/
def guest_pair_search_start (f : FlowsState) (isAdminU isAllowedU : Bool) :
    FlowsState :=
  if isAdminU || isAllowedU then f
  else
    { report := none, legend := none, legendView := false, maleSearch := none,
      guestReport := some GuestStage.wait_female }

/-- `bot.action_search_prompt`: pops only REPORT_STATE. -/
def action_search_prompt (f : FlowsState) : FlowsState :=
  { f with report := none }

/-- `bot.legend_add_prompt`: admin-only; starts the legend add flow without
popping anything else. -/
def legend_add_prompt (f : FlowsState) (isAdminU : Bool) : FlowsState :=
  if isAdminU then { f with legend := some (LegendMode.add, LegendStage.wait_female) }
  else f

/-- `bot.legend_edit_prompt`: admin-only; starts the legend edit flow without
popping anything else. -/
def legend_edit_prompt (f : FlowsState) (isAdminU : Bool) : FlowsState :=
  if isAdminU then { f with legend := some (LegendMode.edit, LegendStage.wait_female) }
  else f

/-- `bot.back_button`: pops all five flow dictionaries. -/
def back_button (_f : FlowsState) : FlowsState := noFlows

/-! ## Legend registry (src/db.py + src/bot.py legend flow) -/

/-- A row of `female_legends` (key: female_id). -/
structure LegendRow where
  female_id : List Char
  chat_id : Int
  content : List Char
  message_id : Option Int
deriving DecidableEq

/-- `db.get_female_legend`. -/
def get_female_legend (legends : List LegendRow) (fid : List Char) :
    Option LegendRow :=
  legends.find? (fun r => r.female_id == fid)

/-- `db.upsert_female_legend`: INSERT ... ON CONFLICT(female_id) DO UPDATE. -/
def upsert_female_legend (legends : List LegendRow) (fid : List Char) (cid : Int)
    (content : List Char) (mid : Option Int) : List LegendRow :=
  if legends.any (fun r => r.female_id == fid) then
    legends.map (fun r =>
      if r.female_id == fid then
        { r with chat_id := cid, content := content, message_id := mid }
      else r)
  else
    legends ++ [{ female_id := fid, chat_id := cid, content := content,
                  message_id := mid }]

/-- The `SELECT chat_id, title FROM allowed_chats WHERE female_id=? ORDER BY
added_at DESC LIMIT 1` lookup: the most recently registered chat carrying the
given subject-group id (chats are kept in registration order). -/
def chat_for_female (chats : List ChatRow) (fid : List Char) : Option ChatRow :=
  (chats.filter (fun c => c.female_id == fid)).getLast?

/-- Python `str.strip()` on both ends (restricted to Unicode whitespace). -/
def pyStrip (l : List Char) : List Char :=
  ((l.dropWhile Char.isWhitespace).reverse.dropWhile Char.isWhitespace).reverse

/-- One actor's LEGEND_STATE entry: stage `wait_female` carries the mode,
stage `wait_text` additionally the subject-group id, the owning chat id and
the previously stored content snapshot. -/
inductive LegendFlow where
  | waitFemale (mode : LegendMode)
  | waitText (mode : LegendMode) (female_id : List Char) (chat_id : Int)
      (previous_content : List Char)
deriving DecidableEq

inductive LegendReply
  | chatNotFound | alreadyExists | notYetCreated | promptText
deriving DecidableEq

/-- `bot.legend_wait_female` (dispatched on a 10-digit message while the
legend flow is at stage wait_female): resolves the owning chat, enforces the
add/edit existence rules, and advances to stage wait_text with the stored
content snapshot. -/
def legend_wait_female (isAdminU : Bool) (st : Option LegendFlow)
    (chats : List ChatRow) (legends : List LegendRow) (fid : List Char) :
    Option LegendFlow × Option LegendReply :=
  if !isAdminU then (st, none)
  else
    match st with
    | some (LegendFlow.waitFemale mode) =>
      match chat_for_female chats fid with
      | none => (st, some LegendReply.chatNotFound)
      | some chat =>
        match mode, get_female_legend legends fid with
        | LegendMode.add, some _ => (st, some LegendReply.alreadyExists)
        | LegendMode.edit, none => (st, some LegendReply.notYetCreated)
        | _, lrow =>
          (some (LegendFlow.waitText mode fid chat.chat_id
            (match lrow with | some r => r.content | none => [])),
           some LegendReply.promptText)
    | other => (other, none)

inductive LegendTextReply
  | emptyBody | chatUndefined | unchanged | success
deriving DecidableEq

structure LegendTextResult where
  flow : Option LegendFlow
  legends : List LegendRow
  broadcast : Option Int
  reply : Option LegendTextReply
deriving DecidableEq

/-- `bot.legend_wait_text` (dispatched on a text message while the legend
flow is at stage wait_text): strips the body, rejects an empty body, rejects
a missing chat/female id (Python falsiness: chat id 0 or empty id), rejects
an edit whose stripped body equals the stripped snapshot BEFORE sending or
writing anything, and otherwise re-broadcasts into the owning chat
(`broadcast` holds its chat id, `sentMsgId` the id the transport assigned)
and upserts the stripped body. -/
def legend_wait_text (isAdminU : Bool) (st : Option LegendFlow)
    (legends : List LegendRow) (body : List Char) (sentMsgId : Int) :
    LegendTextResult :=
  if !isAdminU then { flow := st, legends := legends, broadcast := none, reply := none }
  else
    match st with
    | some (LegendFlow.waitText mode fid cid prev) =>
      let body' := pyStrip body
      if body'.isEmpty then
        { flow := st, legends := legends, broadcast := none,
          reply := some LegendTextReply.emptyBody }
      else if cid == 0 || fid.isEmpty then
        { flow := none, legends := legends, broadcast := none,
          reply := some LegendTextReply.chatUndefined }
      else if mode == LegendMode.edit && body' == pyStrip prev then
        { flow := st, legends := legends, broadcast := none,
          reply := some LegendTextReply.unchanged }
      else
        { flow := none,
          legends := upsert_female_legend legends fid cid body' (some sentMsgId),
          broadcast := some cid,
          reply := some LegendTextReply.success }
    | other => { flow := other, legends := legends, broadcast := none, reply := none }

/-! ## Continuation cursor (src/bot.py, `send_results` / `cb_more`)

The outbound "more" control payload is the colon-joined string
`more:<subject>:<offset>:<groupFilterOrDash>:<timeFilterCode>:<capabilityFlag>`;
`cb_more` splits the echoed payload on `:` and rebuilds the cursor.  Python
`str.split(":")` is `splitColon`; the f-string is list concatenation;
`int(...)` on the canonical digit strings produced here is `parseNat`. -/

def splitColonAux : List Char → List Char → List (List Char)
  | [], acc => [acc.reverse]
  | c :: rest, acc =>
    if c == ':' then acc.reverse :: splitColonAux rest []
    else splitColonAux rest (c :: acc)

/-- Python `payload.split(":")`. -/
def splitColon (s : List Char) : List (List Char) := splitColonAux s []

def decDigitChar : Nat → Char
  | 0 => '0' | 1 => '1' | 2 => '2' | 3 => '3' | 4 => '4'
  | 5 => '5' | 6 => '6' | 7 => '7' | 8 => '8' | 9 => '9'
  | _ => '?'

def natCharsAux : Nat → Nat → List Char
  | 0, _ => []
  | fuel + 1, n => if n = 0 then [] else decDigitChar (n % 10) :: natCharsAux fuel (n / 10)

/-- The decimal representation of a natural number (Python `str(n)` /
f-string interpolation of a non-negative int). -/
def natChars (n : Nat) : List Char :=
  if n = 0 then ['0'] else (natCharsAux n n).reverse

def charVal (c : Char) : Nat := c.toNat - 48

/-- Python `int(...)` restricted to the canonical non-negative decimal
strings this protocol emits (no signs or whitespace occur in a payload). -/
def parseNat (l : List Char) : Option Nat :=
  if l.isEmpty then none
  else if l.all Char.isDigit then
    some (l.foldl (fun a c => a * 10 + charVal c) 0)
  else none

/-- The continuation cursor carried by a "more" control. -/
structure Cursor where
  subject : List Char
  offset : Nat
  female_filter : Option (List Char)
  time_filter : List Char
  allow_filters : Bool
deriving DecidableEq

/-- `send_results`:
`f"more:{male_id}:{new_offset}:{filt_token}:{time_filter}:{allow_flag}"`,
where `filt_token` is the female filter or the `-` sentinel and `allow_flag`
is `"1"`/`"0"`. -/
def encode_more (c : Cursor) : List Char :=
  ['m', 'o', 'r', 'e'] ++ ':' ::
    (c.subject ++ ':' ::
      (natChars c.offset ++ ':' ::
        ((match c.female_filter with | some f => f | none => ['-']) ++ ':' ::
          (c.time_filter ++ ':' ::
            [if c.allow_filters then '1' else '0']))))

/-- `cb_more`: split on `:`; `parts[1]` is the subject, `int(parts[2])` the
offset; with ≥ 6 parts, `parts[3]` (`-` decoding to no filter), `parts[4]`
and `parts[5] != "0"` give the filters and the capability flag; shorter
payloads fall back to the legacy defaults.  Failures (missing parts,
unparsable offset) abort the callback. -/
def cb_more_parse (payload : List Char) : Option Cursor :=
  let parts := splitColon payload
  match parts.get? 1, parts.get? 2 with
  | some male, some offStr =>
    match parseNat offStr with
    | none => none
    | some off =>
      if 6 ≤ parts.length then
        match parts.get? 3, parts.get? 4, parts.get? 5 with
        | some p3, some p4, some p5 =>
          some { subject := male, offset := off,
                 female_filter := if p3 == ['-'] then none else some p3,
                 time_filter := p4, allow_filters := !(p5 == ['0']) }
        | _, _, _ => none
      else if 5 ≤ parts.length then
        match parts.get? 3, parts.get? 4 with
        | some p3, some p4 =>
          some { subject := male, offset := off,
                 female_filter := if p3 == ['-'] then none else some p3,
                 time_filter := p4, allow_filters := true }
        | _, _ => none
      else
        some { subject := male, offset := off, female_filter := none,
               time_filter := ['a', 'l', 'l'], allow_filters := true }
  | _, _ => none

/-! ## Quota and abuse guard (src/bot.py, `handle_male_search`)

The handler runs for one actor; the SQL it issues filters every table by that
actor's id, so the state below is the actor's own slice: the `searches` rows
(`ts` = created_at, stored and compared as timestamps), the
`allowed_users.banned_until` value, the `ratelimits.last_action_ts` value and
the `settings['guest_limit_search']` value. -/

inductive QueryType | male | guest_pair | female | legend_view
deriving DecidableEq

structure SearchEv where
  ts : Int
  qtype : QueryType
deriving DecidableEq

structure GuardState where
  searches : List SearchEv
  ban : Option Int
  last_action_ts : Option Int
  guest_limit_search : Option Int
deriving DecidableEq

/-- `db.get_setting_int`: the stored value or the fallback. -/
def get_setting_int (v : Option Int) (fallback : Int) : Int := v.getD fallback

/-- `db.log_search`: INSERT INTO searches(...). -/
def log_search (evs : List SearchEv) (now : Int) (q : QueryType) : List SearchEv :=
  evs ++ [{ ts := now, qtype := q }]

/-- `SELECT COUNT(*) FROM searches WHERE user_id=? AND query_type IN
('male','guest_pair') AND created_at > ?`. -/
def count_searches_since (evs : List SearchEv) (cutoff : Int) : Nat :=
  (evs.filter (fun e =>
    (e.qtype == QueryType.male || e.qtype == QueryType.guest_pair) &&
      decide (cutoff < e.ts))).length

/-- `db.rate_limit_allowed`: allow unless the previous action was less than
`min_interval` seconds ago; record the timestamp when allowing. -/
def rate_limit_allowed (last : Option Int) (now : Int) (min_interval : Int) :
    Bool × Option Int :=
  match last with
  | none => (true, some now)
  | some l => if now - l < min_interval then (false, some l) else (true, some now)

inductive SearchOutcome where
  | femaleCount
  | banned (until_ts : Int)
  | rateLimited
  | quotaExceeded (lim : Int)
  | results
  | filterPrompt
deriving DecidableEq

/-- `handle_male_search` after the daily-quota gate: log the search, then the
60-second auto-ban check (count ≥ 30 and not admin ⇒ ban for 900 s and reply
with the ban — `send_results` is NOT reached), otherwise deliver results
(guests) or the filter prompt (privileged actors). -/
def hms_afterQuota (st : GuardState) (isAdminU limited : Bool) (now : Int) :
    SearchOutcome × GuardState :=
  let st2 := { st with searches := log_search st.searches now QueryType.male }
  if 30 ≤ count_searches_since st2.searches (now - 60) && !isAdminU then
    (SearchOutcome.banned (now + 900), { st2 with ban := some (now + 900) })
  else if limited then (SearchOutcome.results, st2)
  else (SearchOutcome.filterPrompt, st2)

/-- `handle_male_search` after the rate-limit gate: the daily quota applies
only to limited actors (neither admin nor allow-listed): count the trailing
24h of search-kind events against `guest_limit_search` (default 50). -/
def hms_afterRate (st : GuardState) (isAdminU isAllowedU : Bool) (now : Int) :
    SearchOutcome × GuardState :=
  let limited := !isAdminU && !isAllowedU
  if limited then
    let lim := get_setting_int st.guest_limit_search 50
    if lim ≤ (count_searches_since st.searches (now - 86400) : Int) then
      (SearchOutcome.quotaExceeded lim, st)
    else hms_afterQuota st isAdminU limited now
  else hms_afterQuota st isAdminU limited now

/-- `handle_male_search` after the ban gate: the spacing check
(`rate_limit_allowed`, 2 s), which records the action time when allowing. -/
def hms_afterBan (st : GuardState) (isAdminU isAllowedU : Bool) (now : Int) :
    SearchOutcome × GuardState :=
  let rl := rate_limit_allowed st.last_action_ts now 2
  let st1 := { st with last_action_ts := rl.2 }
  if rl.1 then hms_afterRate st1 isAdminU isAllowedU now
  else (SearchOutcome.rateLimited, st1)

/-- `bot.handle_male_search` for a 10-digit input (dispatch preconditions —
no guest flow, no report/legend-view stage — hold): the registered-female-id
branch first, then ban → spacing → daily quota → log → post-hoc auto-ban. -/
def handle_male_search (st : GuardState) (isAdminU isAllowedU isFemaleId : Bool)
    (now : Int) : SearchOutcome × GuardState :=
  if isFemaleId then
    (SearchOutcome.femaleCount,
     { st with searches := log_search st.searches now QueryType.female })
  else
    match st.ban with
    | some b =>
      if now < b then (SearchOutcome.banned b, st)
      else hms_afterBan st isAdminU isAllowedU now
    | none => hms_afterBan st isAdminU isAllowedU now

/-! Helper lemmas about lists used to characterize the scanner. -/

theorem getLast?_cons_ne_nil {α : Type} {a : α} {l : List α} (h : l ≠ []) :
    (a :: l).getLast? = l.getLast? := by
  cases l with
  | nil => exact absurd rfl h
  | cons b m => simp

theorem bool_eq_false_of_ne_true {b : Bool} (h : ¬b = true) : b = false := by
  cases hb : b
  · rfl
  · exact absurd hb h

theorem takeWhile_append_all {p : Char → Bool} {a b : List Char}
    (ha : ∀ x ∈ a, p x = true) (hb : ∀ c, b.head? = some c → p c = false) :
    (a ++ b).takeWhile p = a ∧ (a ++ b).dropWhile p = b := by
  induction a with
  | nil =>
    simp only [List.nil_append]
    cases b with
    | nil => exact ⟨rfl, rfl⟩
    | cons c t =>
      have hc : p c = false := hb c rfl
      rw [List.takeWhile_cons, List.dropWhile_cons]
      simp [hc]
  | cons x xs ih =>
    have hx : p x = true := ha x (by simp)
    have ihx := ih (fun y hy => ha y (by simp [hy]))
    rw [List.cons_append, List.takeWhile_cons, List.dropWhile_cons]
    simp [hx, ihx.1, ihx.2]

theorem takeWhile_append_not_all {p : Char → Bool} {a b : List Char}
    (h : ∃ x ∈ a, p x = false) :
    (a ++ b).takeWhile p = a.takeWhile p ∧
    (a ++ b).dropWhile p = a.dropWhile p ++ b := by
  induction a with
  | nil => simp at h
  | cons x xs ih =>
    by_cases hx : p x = true
    · have h' : ∃ y ∈ xs, p y = false := by
        rcases h with ⟨y, hy, hyp⟩
        rcases List.mem_cons.mp hy with rfl | hy'
        · exact absurd hx (by simp [hyp])
        · exact ⟨y, hy', hyp⟩
      have ihx := ih h'
      rw [List.cons_append, List.takeWhile_cons, List.dropWhile_cons,
          List.takeWhile_cons, List.dropWhile_cons]
      simp [hx, ihx.1, ihx.2]
    · have hx' : p x = false := bool_eq_false_of_ne_true hx
      rw [List.cons_append, List.takeWhile_cons, List.dropWhile_cons,
          List.takeWhile_cons, List.dropWhile_cons]
      simp [hx']

theorem head?_dropWhile {p : Char → Bool} :
    ∀ {l : List Char} {c : Char}, (l.dropWhile p).head? = some c → p c = false := by
  intro l
  induction l with
  | nil => intro c h; simp [List.dropWhile] at h
  | cons x xs ih =>
    intro c h
    by_cases hx : p x = true
    · exact ih (by rw [List.dropWhile_cons] at h; simpa [hx] using h)
    · have hx' : p x = false := bool_eq_false_of_ne_true hx
      rw [List.dropWhile_cons] at h
      simp [hx'] at h
      rw [← h]
      exact hx'

theorem getLast?_dropWhile {p : Char → Bool} :
    ∀ {l : List Char}, l.dropWhile p ≠ [] → (l.dropWhile p).getLast? = l.getLast? := by
  intro l
  induction l with
  | nil => intro h; simp [List.dropWhile] at h
  | cons x xs ih =>
    intro h
    by_cases hx : p x = true
    · have hd : (x :: xs).dropWhile p = xs.dropWhile p := by
        rw [List.dropWhile_cons]; simp [hx]
      rw [hd] at h ⊢
      have hxs : xs ≠ [] := by
        intro hnil
        rw [hnil] at h
        simp [List.dropWhile] at h
      rw [ih h, getLast?_cons_ne_nil hxs]
    · have hx' : p x = false := bool_eq_false_of_ne_true hx
      rw [List.dropWhile_cons]
      simp [hx']

theorem dropWhile_eq_nil_all {p : Char → Bool} :
    ∀ {l : List Char}, l.dropWhile p = [] → ∀ x ∈ l, p x = true := by
  intro l
  induction l with
  | nil => intro _ x hx; simp at hx
  | cons y ys ih =>
    intro h x hx
    rw [List.dropWhile_cons] at h
    by_cases hy : p y = true
    · rw [if_pos hy] at h
      rcases List.mem_cons.mp hx with rfl | hx'
      · exact hy
      · exact ih h x hx'
    · rw [if_neg hy] at h
      simp at h

/-! Rewriting equations for `digitRuns` in `takeWhile`/`dropWhile` form. -/

theorem digitRuns_nil : digitRuns [] = [] := rfl

theorem digitRuns_cons_neg {c : Char} {rest : List Char} (hc : c.isDigit = false) :
    digitRuns (c :: rest) = digitRuns rest := by
  simp [digitRuns, digitRunsAux, hc]

theorem digitRunsAux_spec :
    ∀ (s acc : List Char), acc ≠ [] →
      digitRunsAux s acc =
        (acc.reverse ++ s.takeWhile Char.isDigit) ::
          digitRuns (s.dropWhile Char.isDigit) := by
  intro s
  induction s with
  | nil =>
    intro acc hacc
    have hem : acc.isEmpty = false := by
      cases acc
      · exact absurd rfl hacc
      · rfl
    simp [digitRunsAux, digitRuns, hem, List.takeWhile, List.dropWhile]
  | cons d rest ih =>
    intro acc hacc
    have hem : acc.isEmpty = false := by
      cases acc
      · exact absurd rfl hacc
      · rfl
    by_cases hd : d.isDigit = true
    · have hne : d :: acc ≠ [] := by simp
      rw [show digitRunsAux (d :: rest) acc = digitRunsAux rest (d :: acc) by
            simp [digitRunsAux, hd],
          ih (d :: acc) hne, List.takeWhile_cons, List.dropWhile_cons]
      simp [hd]
    · have hd' : d.isDigit = false := bool_eq_false_of_ne_true hd
      have ht : (d :: rest).takeWhile Char.isDigit = [] := by
        rw [List.takeWhile_cons]; simp [hd']
      have hdw : (d :: rest).dropWhile Char.isDigit = d :: rest := by
        rw [List.dropWhile_cons]; simp [hd']
      rw [show digitRunsAux (d :: rest) acc = acc.reverse :: digitRunsAux rest [] by
            simp [digitRunsAux, hd', hem],
          ht, hdw, digitRuns_cons_neg hd']
      simp [digitRuns]

theorem digitRuns_cons_pos {c : Char} {rest : List Char} (hc : c.isDigit = true) :
    digitRuns (c :: rest) =
      (c :: rest.takeWhile Char.isDigit) :: digitRuns (rest.dropWhile Char.isDigit) := by
  have h1 : digitRuns (c :: rest) = digitRunsAux rest [c] := by
    simp [digitRuns, digitRunsAux, hc]
  rw [h1, digitRunsAux_spec rest [c] (by simp)]
  rfl

/-- Characterization of the scanner: a sequence is one of the collected runs
iff it is a nonempty digit run occurring with non-digit (or edge) boundaries. -/
theorem mem_digitRuns :
    ∀ (s r : List Char), r ∈ digitRuns s ↔ r ≠ [] ∧ allDigits r ∧ boundedRun s r := by
  have main : ∀ n (s : List Char), s.length ≤ n → ∀ r,
      (r ∈ digitRuns s ↔ r ≠ [] ∧ allDigits r ∧ boundedRun s r) := by
    intro n
    induction n with
    | zero =>
      intro s hs r
      have hsnil : s = [] := List.length_eq_zero.mp (Nat.le_zero.mp hs)
      subst hsnil
      constructor
      · intro h; simp [digitRuns_nil] at h
      · rintro ⟨hne, -, pre, post, hsp, -, -⟩
        rcases List.append_eq_nil.mp hsp.symm with ⟨h1, -⟩
        rcases List.append_eq_nil.mp h1 with ⟨-, h2⟩
        exact absurd h2 hne
    | succ n ih =>
      intro s hs r
      cases s with
      | nil => exact ih [] (by simp) r
      | cons c rest =>
        have hrlen : rest.length ≤ n := by
          simp only [List.length_cons] at hs
          omega
        by_cases hc : c.isDigit = true
        · rw [digitRuns_cons_pos hc]
          have hdlen : (rest.dropWhile Char.isDigit).length ≤ n := by
            have h1 : (rest.dropWhile Char.isDigit).length ≤ rest.length :=
              (List.dropWhile_sublist Char.isDigit).length_le
            omega
          constructor
          · intro hmem
            rcases List.mem_cons.mp hmem with rfl | hmem'
            · refine ⟨by simp, ?_, [], rest.dropWhile Char.isDigit, ?_, ?_, ?_⟩
              · intro x hx
                rcases List.mem_cons.mp hx with rfl | hx'
                · exact hc
                · exact List.mem_takeWhile_imp hx'
              · rw [List.nil_append, List.cons_append, List.takeWhile_append_dropWhile]
              · intro x hx; simp at hx
              · intro x hx; exact head?_dropWhile hx
            · rcases (ih (rest.dropWhile Char.isDigit) hdlen r).mp hmem' with
                ⟨hne, hdig, pre, post, hdsp, hpre, hpost⟩
              have hprene : pre ≠ [] := by
                intro hprenil
                subst hprenil
                cases r with
                | nil => exact hne rfl
                | cons r0 rtail =>
                  have hhead : (rest.dropWhile Char.isDigit).head? = some r0 := by
                    rw [hdsp]; simp
                  have hr0 : Char.isDigit r0 = false := head?_dropWhile hhead
                  have hr0' := hdig r0 (by simp)
                  rw [hr0'] at hr0
                  exact absurd hr0 (by simp)
              refine ⟨hne, hdig, (c :: rest.takeWhile Char.isDigit) ++ pre, post, ?_, ?_, hpost⟩
              · rw [List.append_assoc, List.append_assoc, ← List.append_assoc pre r post,
                    ← hdsp, List.cons_append, List.takeWhile_append_dropWhile]
              · intro x hx
                rw [List.getLast?_append_of_ne_nil (c :: rest.takeWhile Char.isDigit)
                      hprene] at hx
                exact hpre x hx
          · rintro ⟨hne, hdig, pre, post, hsp, hpre, hpost⟩
            cases pre with
            | nil =>
              rw [List.nil_append] at hsp
              cases r with
              | nil => exact absurd rfl hne
              | cons r0 rtail =>
                have hsp' : c :: rest = r0 :: (rtail ++ post) := by simpa using hsp
                rcases List.cons_eq_cons.mp hsp' with ⟨hc0, hrest⟩
                subst hc0
                have hsplit := takeWhile_append_all (p := Char.isDigit)
                  (a := rtail) (b := post)
                  (fun y hy => hdig y (by simp [hy])) hpost
                have htr : rest.takeWhile Char.isDigit = rtail := by
                  rw [hrest]; exact hsplit.1
                exact List.mem_cons.mpr (Or.inl (by rw [htr]))
            | cons p0 pre2 =>
              have hsp' : c :: rest = p0 :: (pre2 ++ r ++ post) := by simpa using hsp
              rcases List.cons_eq_cons.mp hsp' with ⟨hp0, hrest⟩
              subst hp0
              have hpre2ne : pre2 ≠ [] := by
                intro h2
                subst h2
                have := hpre c (by simp)
                rw [hc] at this
                exact absurd this (by simp)
              have hwitness : ∃ x ∈ pre2, Char.isDigit x = false := by
                refine ⟨pre2.getLast hpre2ne, List.getLast_mem hpre2ne, ?_⟩
                apply hpre
                rw [getLast?_cons_ne_nil hpre2ne]
                exact List.getLast?_eq_getLast pre2 hpre2ne
              have hsplit := takeWhile_append_not_all (p := Char.isDigit)
                (a := pre2) (b := r ++ post) hwitness
              have hdeq : rest.dropWhile Char.isDigit =
                  pre2.dropWhile Char.isDigit ++ r ++ post := by
                rw [hrest, List.append_assoc, hsplit.2, ← List.append_assoc]
              have hpre2dne : pre2.dropWhile Char.isDigit ≠ [] := by
                intro hnil
                rcases hwitness with ⟨x, hx, hxf⟩
                have := dropWhile_eq_nil_all hnil x hx
                rw [this] at hxf
                exact absurd hxf (by simp)
              have hmem' : r ∈ digitRuns (rest.dropWhile Char.isDigit) := by
                apply (ih (rest.dropWhile Char.isDigit) hdlen r).mpr
                refine ⟨hne, hdig, pre2.dropWhile Char.isDigit, post, hdeq, ?_, hpost⟩
                intro x hx
                rw [getLast?_dropWhile hpre2dne] at hx
                apply hpre
                rw [getLast?_cons_ne_nil hpre2ne]
                exact hx
              exact List.mem_cons.mpr (Or.inr hmem')
        · have hc' : c.isDigit = false := bool_eq_false_of_ne_true hc
          rw [digitRuns_cons_neg hc', ih rest hrlen r]
          constructor
          · rintro ⟨hne, hdig, pre, post, hsp, hpre, hpost⟩
            refine ⟨hne, hdig, c :: pre, post, by rw [hsp]; rfl, ?_, hpost⟩
            intro x hx
            cases pre with
            | nil =>
              simp at hx
              rw [← hx]
              exact hc'
            | cons q qs =>
              rw [getLast?_cons_ne_nil (by simp)] at hx
              exact hpre x hx
          · rintro ⟨hne, hdig, pre, post, hsp, hpre, hpost⟩
            cases pre with
            | nil =>
              rw [List.nil_append] at hsp
              cases r with
              | nil => exact absurd rfl hne
              | cons r0 rtail =>
                have hsp' : c :: rest = r0 :: (rtail ++ post) := by simpa using hsp
                rcases List.cons_eq_cons.mp hsp' with ⟨hc0, -⟩
                subst hc0
                have := hdig c (by simp)
                rw [hc'] at this
                exact absurd this (by simp)
            | cons p0 pre2 =>
              have hsp' : c :: rest = p0 :: (pre2 ++ r ++ post) := by simpa using hsp
              rcases List.cons_eq_cons.mp hsp' with ⟨hp0, hrest⟩
              subst hp0
              refine ⟨hne, hdig, pre2, post, hrest, ?_, hpost⟩
              intro x hx
              apply hpre
              cases pre2 with
              | nil => simp at hx
              | cons q qs =>
                rw [getLast?_cons_ne_nil (by simp)]
                exact hx
  intro s r
  exact main s.length s (Nat.le_refl _) r

/-- Characterization of `extract_male_ids`: exactly the length-ten digit runs
with non-digit (or edge) boundaries. -/
theorem mem_extract_male_ids (s t : List Char) :
    t ∈ extract_male_ids s ↔ t.length = 10 ∧ allDigits t ∧ boundedRun s t := by
  unfold extract_male_ids
  rw [List.mem_filter, mem_digitRuns s t]
  constructor
  · rintro ⟨⟨hne, hdig, hbound⟩, hlen⟩
    exact ⟨by simpa using hlen, hdig, hbound⟩
  · rintro ⟨hlen, hdig, hbound⟩
    refine ⟨⟨?_, hdig, hbound⟩, by simpa using hlen⟩
    intro h
    rw [h] at hlen
    simp at hlen

/-! ## Link-table lemmas -/

theorem find?_cons_pos {α : Type} (p : α → Bool) (a : α) (l : List α)
    (h : p a = true) : (a :: l).find? p = some a := by
  simp [List.find?, h]

theorem find?_cons_neg {α : Type} (p : α → Bool) (a : α) (l : List α)
    (h : p a = false) : (a :: l).find? p = l.find? p := by
  simp [List.find?, h]

theorem find?_pred {α : Type} (p : α → Bool) (l : List α) (a : α)
    (h : l.find? p = some a) : p a = true := List.find?_some h

theorem mem_link_male_ids (ref : Nat) :
    ∀ (mids : List (List Char)) (L : List (Nat × List Char)) (a : Nat) (b : List Char),
      (a, b) ∈ link_male_ids L ref mids ↔ (a, b) ∈ L ∨ (a = ref ∧ b ∈ mids) := by
  intro mids
  induction mids with
  | nil => intro L a b; simp [link_male_ids]
  | cons m ms ih =>
    intro L a b
    have hstep : link_male_ids L ref (m :: ms) =
        link_male_ids (if (ref, m) ∈ L then L else L ++ [(ref, m)]) ref ms := rfl
    rw [hstep, ih]
    by_cases h : (ref, m) ∈ L
    · rw [if_pos h]
      constructor
      · rintro (hx | ⟨rfl, h2⟩)
        · exact Or.inl hx
        · exact Or.inr ⟨rfl, List.mem_cons.mpr (Or.inr h2)⟩
      · rintro (hx | ⟨rfl, h2⟩)
        · exact Or.inl hx
        · rcases List.mem_cons.mp h2 with rfl | h2'
          · exact Or.inl h
          · exact Or.inr ⟨rfl, h2'⟩
    · rw [if_neg h]
      constructor
      · rintro (hx | ⟨rfl, h2⟩)
        · rcases List.mem_append.mp hx with hL | hm
          · exact Or.inl hL
          · simp at hm
            exact Or.inr ⟨hm.1, by simp [hm.2]⟩
        · exact Or.inr ⟨rfl, List.mem_cons.mpr (Or.inr h2)⟩
      · rintro (hx | ⟨rfl, h2⟩)
        · exact Or.inl (List.mem_append.mpr (Or.inl hx))
        · rcases List.mem_cons.mp h2 with rfl | h2'
          · exact Or.inl (List.mem_append.mpr (Or.inr (by simp)))
          · exact Or.inr ⟨rfl, h2'⟩

theorem mem_unlink_all_male_ids (L : List (Nat × List Char)) (ref a : Nat)
    (b : List Char) :
    (a, b) ∈ unlink_all_male_ids L ref ↔ (a, b) ∈ L ∧ a ≠ ref := by
  simp [unlink_all_male_ids, List.mem_filter]

theorem link_male_ids_nodup (ref : Nat) :
    ∀ (mids : List (List Char)) (L : List (Nat × List Char)),
      L.Nodup → (link_male_ids L ref mids).Nodup := by
  intro mids
  induction mids with
  | nil => intro L h; exact h
  | cons m ms ih =>
    intro L h
    have hstep : link_male_ids L ref (m :: ms) =
        link_male_ids (if (ref, m) ∈ L then L else L ++ [(ref, m)]) ref ms := rfl
    rw [hstep]
    by_cases hm : (ref, m) ∈ L
    · rw [if_pos hm]; exact ih L h
    · rw [if_neg hm]
      apply ih
      rw [List.nodup_append]
      refine ⟨h, List.nodup_singleton _, ?_⟩
      intro x hxL hxM
      rw [List.mem_singleton] at hxM
      rw [hxM] at hxL
      exact hm hxL

theorem find_message_update (msgs : List MsgRow) (cid mid : Int) (text : List Char) :
    find_message (update_message_text msgs cid mid text) cid mid =
      (find_message msgs cid mid).map (fun m => { m with text := text }) := by
  induction msgs with
  | nil => rfl
  | cons h t ih =>
    unfold find_message update_message_text at *
    simp only [List.map_cons]
    by_cases hp : (h.chat_id == cid && h.message_id == mid) = true
    · have hpu : ((fun m => m.chat_id == cid && m.message_id == mid)
          ({ h with text := text } : MsgRow)) = true := hp
      rw [if_pos hp,
          find?_cons_pos (fun m : MsgRow => m.chat_id == cid && m.message_id == mid) _ _ hpu,
          find?_cons_pos (fun m : MsgRow => m.chat_id == cid && m.message_id == mid) _ _ hp]
      rfl
    · have hp' : (h.chat_id == cid && h.message_id == mid) = false :=
        bool_eq_false_of_ne_true hp
      rw [if_neg hp,
          find?_cons_neg (fun m : MsgRow => m.chat_id == cid && m.message_id == mid) _ _ hp',
          find?_cons_neg (fun m : MsgRow => m.chat_id == cid && m.message_id == mid) _ _ hp', ih]

/-! ## Claim C5: token extraction -/

/-- C5: token extraction returns exactly the maximal digit runs of length
exactly ten bounded by non-digit characters or string edges;
`extract("call 1234567890 now")` is `{"1234567890"}`; an 11-digit run yields
nothing; and duplicate occurrences of one token collapse to a single stored
link (the link table stays duplicate-free, and linking the same token twice
stores one row). -/
theorem C5_extraction :
    (∀ s t : List Char,
        t ∈ extract_male_ids s ↔ t.length = 10 ∧ allDigits t ∧ boundedRun s t) ∧
    extract_male_ids "call 1234567890 now".data = ["1234567890".data] ∧
    extract_male_ids "12345678901".data = [] ∧
    (∀ (ref : Nat) (mids : List (List Char)), (link_male_ids [] ref mids).Nodup) ∧
    (link_male_ids [] 1 ["1234567890".data, "1234567890".data]).length = 1 := by
  refine ⟨mem_extract_male_ids, by decide, by decide, ?_, by decide⟩
  intro ref mids
  exact link_male_ids_nodup ref mids [] List.nodup_nil

/-! ## Claim C4: edits rebuild the token links -/

/-- C4 counterexample: an edit event in a chat that is not (or no longer)
registered is ignored even though a MessageRecord exists for the key — the
stored text keeps its old value and the links are not replaced, contradicting
the claim's "otherwise" branch. -/
theorem C4_counterexample :
    (find_message
      [{ id := 1, chat_id := 5, message_id := 7, date := 0,
         text := "old 1111111111".data }] 5 7).isSome = true ∧
    "2222222222".data ∈ extract_male_ids "new 2222222222".data ∧
    on_group_edited
        { messages := [{ id := 1, chat_id := 5, message_id := 7, date := 0,
                         text := "old 1111111111".data }],
          links := [(1, "1111111111".data)],
          chats := [] } 5 7 "new 2222222222".data =
      { messages := [{ id := 1, chat_id := 5, message_id := 7, date := 0,
                       text := "old 1111111111".data }],
        links := [(1, "1111111111".data)],
        chats := [] } ∧
    ¬ (1, "2222222222".data) ∈
      (on_group_edited
        { messages := [{ id := 1, chat_id := 5, message_id := 7, date := 0,
                         text := "old 1111111111".data }],
          links := [(1, "1111111111".data)],
          chats := [] } 5 7 "new 2222222222".data).links := by
  decide

/-- C4 (amended): for an edit event in a REGISTERED chat, if no MessageRecord
exists for the key the edit is ignored entirely; otherwise the stored text is
replaced and the edited message's linked tokens afterwards are exactly the
set freshly extracted from the new text.  (Edits in unregistered chats are
ignored even when a record exists.) -/
theorem C4_edit_consistency (s : DbState) (cid mid : Int) (text : List Char)
    (hreg : (get_allowed_chat s.chats cid).isSome = true) :
    (find_message s.messages cid mid = none → on_group_edited s cid mid text = s) ∧
    ∀ row, find_message s.messages cid mid = some row →
      find_message (on_group_edited s cid mid text).messages cid mid =
        some { row with text := text } ∧
      ∀ tok, (row.id, tok) ∈ (on_group_edited s cid mid text).links ↔
        tok ∈ extract_male_ids text := by
  rcases Option.isSome_iff_exists.mp hreg with ⟨chat, hchat⟩
  constructor
  · intro hnone
    unfold on_group_edited
    rw [hchat, hnone]
  · intro row hrow
    have hog : on_group_edited s cid mid text =
        { s with
          messages := update_message_text s.messages cid mid text,
          links := link_male_ids (unlink_all_male_ids s.links row.id) row.id
            (extract_male_ids text) } := by
      unfold on_group_edited
      rw [hchat, hrow]
    rw [hog]
    constructor
    · rw [find_message_update, hrow]
      rfl
    · intro tok
      rw [mem_link_male_ids, mem_unlink_all_male_ids]
      simp

/-- C4 witness: a registered-chat edit, evaluated concretely: the record
exists, the text is replaced and the links become exactly the new token. -/
theorem C4_edit_consistency_witness :
    (find_message
      (on_group_edited
        { messages := [{ id := 1, chat_id := 5, message_id := 7, date := 0,
                         text := "old 1111111111".data }],
          links := [(1, "1111111111".data)],
          chats := [{ chat_id := 5, title := [], female_id := "9999999999".data }] }
        5 7 "new 2222222222".data).messages 5 7 =
      some { id := 1, chat_id := 5, message_id := 7, date := 0,
             text := "new 2222222222".data }) ∧
    ((1, "2222222222".data) ∈
      (on_group_edited
        { messages := [{ id := 1, chat_id := 5, message_id := 7, date := 0,
                         text := "old 1111111111".data }],
          links := [(1, "1111111111".data)],
          chats := [{ chat_id := 5, title := [], female_id := "9999999999".data }] }
        5 7 "new 2222222222".data).links ↔
      "2222222222".data ∈ extract_male_ids "new 2222222222".data) := by
  have h := C4_edit_consistency
    { messages := [{ id := 1, chat_id := 5, message_id := 7, date := 0,
                     text := "old 1111111111".data }],
      links := [(1, "1111111111".data)],
      chats := [{ chat_id := 5, title := [], female_id := "9999999999".data }] }
    5 7 "new 2222222222".data (by decide)
  have h2 := h.2 { id := 1, chat_id := 5, message_id := 7, date := 0,
                   text := "old 1111111111".data } (by decide)
  exact ⟨h2.1, h2.2 "2222222222".data⟩

/-! ## Claims C8 and C10: the allowed_users table and bans -/

theorem find?_map_invariant {α : Type} (f : α → α) (p : α → Bool)
    (hf : ∀ a, p (f a) = p a) :
    ∀ l : List α, (l.map f).find? p = (l.find? p).map f := by
  intro l
  induction l with
  | nil => rfl
  | cons a t ih =>
    simp only [List.map_cons]
    by_cases hp : p a = true
    · rw [List.find?_cons_of_pos _ (by rw [hf]; exact hp),
          List.find?_cons_of_pos _ hp]
      rfl
    · rw [List.find?_cons_of_neg _ (by rw [hf]; exact hp),
          List.find?_cons_of_neg _ hp, ih]

/-- C8 counterexample: set a ban until time 1000; at time 500 it has not yet
expired, but `remove_allowed_user` (an operation other than expiry) deletes
the actor's row and with it the stored until-timestamp, so `getBan` no longer
exceeds now. -/
theorem C8_counterexample :
    ((500 : Int) < 1000) ∧
    get_user_ban (set_user_ban [] 7 1000) 7 = some 1000 ∧
    get_user_ban (remove_allowed_user (set_user_ban [] 7 1000) 7) 7 = none := by
  decide

/-- C8 (amended): once set, the stored until-timestamp is kept verbatim by
`add_allowed_user` (which rewrites username, credits and added_by but never
banned_until), and `set_user_ban` stores exactly the requested timestamp; the
guarantee does not survive `remove_allowed_user`, which deletes the actor's
row and with it the ban (nor a later `set_user_ban`, which overwrites it). -/
theorem C8_ban_persistence :
    (∀ (tbl : List UserRow) (u : Int) (uname : Option (List Char))
        (ab cr uid : Int),
        get_user_ban (add_allowed_user tbl u uname ab cr) uid =
          get_user_ban tbl uid) ∧
    (∀ (tbl : List UserRow) (uid until_ts : Int),
        get_user_ban (set_user_ban tbl uid until_ts) uid = some until_ts) := by
  constructor
  · intro tbl u uname ab cr uid
    unfold add_allowed_user get_user_ban
    by_cases hany : (tbl.any fun r => r.user_id == u) = true
    · rw [if_pos hany,
          find?_map_invariant _ _ (by
            intro a
            by_cases ha : (a.user_id == u) = true
            · rw [if_pos ha]
            · rw [if_neg ha])]
      cases hfind : tbl.find? fun r => r.user_id == uid with
      | none => rfl
      | some r =>
        simp only [Option.map_some']
        by_cases hr : (r.user_id == u) = true
        · rw [if_pos hr]
        · rw [if_neg hr]
    · rw [if_neg hany]
      cases hfind : tbl.find? fun r => r.user_id == uid with
      | none =>
        rw [List.find?_append, hfind]
        simp only [Option.none_or]
        by_cases hnew : (u == uid) = true
        · rw [find?_cons_pos (fun r : UserRow => r.user_id == uid)
                { user_id := u, username_lc := uname, added_by := some ab,
                  credits := cr, banned_until := none } [] hnew]
        · rw [find?_cons_neg (fun r : UserRow => r.user_id == uid)
                { user_id := u, username_lc := uname, added_by := some ab,
                  credits := cr, banned_until := none } []
                (bool_eq_false_of_ne_true hnew)]
          rfl
      | some r =>
        rw [List.find?_append, hfind]
        rfl
  · intro tbl uid until_ts
    unfold set_user_ban get_user_ban
    by_cases hany : (tbl.any fun r => r.user_id == uid) = true
    · rw [if_pos hany,
          find?_map_invariant _ _ (by
            intro a
            by_cases ha : (a.user_id == uid) = true
            · rw [if_pos ha]
            · rw [if_neg ha])]
      rcases List.any_eq_true.mp hany with ⟨r, hrmem, hr⟩
      have hfs : ∃ r₀, tbl.find? (fun r => r.user_id == uid) = some r₀ := by
        cases hfind : tbl.find? fun r => r.user_id == uid with
        | none =>
          have := List.find?_eq_none.mp hfind r hrmem
          exact absurd hr this
        | some r₀ => exact ⟨r₀, rfl⟩
      rcases hfs with ⟨r₀, hfind⟩
      have hr₀ : (r₀.user_id == uid) = true :=
        find?_pred (fun r => r.user_id == uid) tbl r₀ hfind
      rw [hfind]
      simp only [Option.map_some']
      rw [if_pos hr₀]
    · rw [if_neg hany, List.find?_append]
      have hnone : tbl.find? (fun r => r.user_id == uid) = none := by
        rw [List.find?_eq_none]
        intro r hrmem
        intro hr
        exact hany (List.any_eq_true.mpr ⟨r, hrmem, hr⟩)
      rw [hnone]
      simp only [Option.none_or]
      rw [find?_cons_pos (fun r : UserRow => r.user_id == uid) _ _ (by simp)]

/-- C10: banning a user with no allowed_users row inserts one (carrying the
ban), so `is_allowed_user` reports them as allow-listed afterwards. -/
theorem C10_ban_enrolls (tbl : List UserRow) (uid until_ts : Int)
    (h : ∀ r ∈ tbl, r.user_id ≠ uid) :
    is_allowed_user (set_user_ban tbl uid until_ts) uid = true ∧
    ∃ r ∈ set_user_ban tbl uid until_ts,
      r.user_id = uid ∧ r.banned_until = some until_ts := by
  have hany : (tbl.any fun r => r.user_id == uid) = false := by
    rw [List.any_eq_false]
    intro r hrmem
    simp only [beq_iff_eq]
    exact fun he => h r hrmem he
  have hset : set_user_ban tbl uid until_ts =
      tbl ++ [{ user_id := uid, username_lc := none, added_by := none,
                credits := 0, banned_until := some until_ts }] := by
    unfold set_user_ban
    rw [if_neg (by rw [hany]; simp)]
  constructor
  · rw [hset]
    unfold is_allowed_user
    rw [List.any_append]
    simp
  · rw [hset]
    exact ⟨{ user_id := uid, username_lc := none, added_by := none, credits := 0,
             banned_until := some until_ts },
           List.mem_append.mpr (Or.inr (by simp)), rfl, rfl⟩

/-- C10 witness: banning a fresh guest (empty table) enrolls them. -/
theorem C10_ban_enrolls_witness :
    is_allowed_user (set_user_ban [] 5 100) 5 = true ∧
    ∃ r ∈ set_user_ban [] 5 100, r.user_id = 5 ∧ r.banned_until = some 100 :=
  C10_ban_enrolls [] 5 100 (by simp)

/-! ## Claim C2: flow exclusivity -/

/-- C2 counterexample: starting the legend-view flow while the report flow is
active leaves BOTH active — `legend_view_start` pops only the guest pair
flow, so neither "at most one Flow active" nor "starting Flow B leaves
exactly B active and A cleared" holds. -/
theorem C2_counterexample :
    activeFlows (legend_view_start (report_start noFlows)) = 2 ∧
    (legend_view_start (report_start noFlows)).report =
      some ReportStage.wait_female ∧
    (legend_view_start (report_start noFlows)).legendView = true := by
  decide

/-- C2 (amended): single-active-flow is not an invariant (report and
legend-view flows can be active simultaneously); full replacement holds only
for the guest pair search start — for a non-privileged actor it leaves
exactly the guest flow active and clears every other flow — and for
back-navigation, which clears all flows. -/
theorem C2_flow_replacement (f : FlowsState) (isAdminU isAllowedU : Bool)
    (h : isAdminU = false ∧ isAllowedU = false) :
    activeFlows (guest_pair_search_start f isAdminU isAllowedU) = 1 ∧
    (guest_pair_search_start f isAdminU isAllowedU).guestReport =
      some GuestStage.wait_female ∧
    (guest_pair_search_start f isAdminU isAllowedU).report = none ∧
    (guest_pair_search_start f isAdminU isAllowedU).legend = none ∧
    (guest_pair_search_start f isAdminU isAllowedU).legendView = false ∧
    (guest_pair_search_start f isAdminU isAllowedU).maleSearch = none ∧
    activeFlows (back_button f) = 0 := by
  rcases h with ⟨h1, h2⟩
  subst h1
  subst h2
  unfold guest_pair_search_start back_button
  simp [activeFlows, noFlows]

/-- C2 witness: a guest whose report and legend-view flows are both active
starts the guest pair search; exactly that flow remains. -/
theorem C2_flow_replacement_witness :
    activeFlows (guest_pair_search_start
      (legend_view_start (report_start noFlows)) false false) = 1 ∧
    (guest_pair_search_start (legend_view_start (report_start noFlows))
      false false).guestReport = some GuestStage.wait_female ∧
    (guest_pair_search_start (legend_view_start (report_start noFlows))
      false false).report = none ∧
    (guest_pair_search_start (legend_view_start (report_start noFlows))
      false false).legend = none ∧
    (guest_pair_search_start (legend_view_start (report_start noFlows))
      false false).legendView = false ∧
    (guest_pair_search_start (legend_view_start (report_start noFlows))
      false false).maleSearch = none ∧
    activeFlows (back_button (legend_view_start (report_start noFlows))) = 0 :=
  C2_flow_replacement (legend_view_start (report_start noFlows)) false false
    ⟨rfl, rfl⟩

/-! ## Claim C9: legend edit idempotence -/

/-- C9: in legend edit mode, resubmitting content whose stripped form equals
the currently stored content is rejected as a no-op before any write — the
legend table is unchanged, nothing is re-broadcast to the owning group, and
the actor is told the text did not change.  (`legend_wait_female` snapshots
the stored content; `legend_wait_text` compares the stripped submission
against the stripped snapshot before sending or writing.) -/
theorem C9_legend_edit_noop (chats : List ChatRow) (legends : List LegendRow)
    (fid : List Char) (chat : ChatRow) (row : LegendRow) (body : List Char)
    (sentMsgId : Int)
    (hchat : chat_for_female chats fid = some chat)
    (hrow : get_female_legend legends fid = some row)
    (hbody : pyStrip body = pyStrip row.content)
    (hne : pyStrip body ≠ [])
    (hcid : chat.chat_id ≠ 0)
    (hfid : fid ≠ []) :
    (legend_wait_text true
      (legend_wait_female true (some (LegendFlow.waitFemale LegendMode.edit))
        chats legends fid).1 legends body sentMsgId).legends = legends ∧
    (legend_wait_text true
      (legend_wait_female true (some (LegendFlow.waitFemale LegendMode.edit))
        chats legends fid).1 legends body sentMsgId).broadcast = none ∧
    (legend_wait_text true
      (legend_wait_female true (some (LegendFlow.waitFemale LegendMode.edit))
        chats legends fid).1 legends body sentMsgId).reply =
      some LegendTextReply.unchanged := by
  have hst1 : (legend_wait_female true (some (LegendFlow.waitFemale LegendMode.edit))
      chats legends fid).1 =
      some (LegendFlow.waitText LegendMode.edit fid chat.chat_id row.content) := by
    simp [legend_wait_female, hchat, hrow]
  rw [hst1]
  have hempty : (pyStrip body).isEmpty = false := by
    cases hb : pyStrip body
    · exact absurd hb hne
    · rfl
  have hcid' : (chat.chat_id == 0) = false := by
    simpa using hcid
  have hfid' : fid.isEmpty = false := by
    cases hf : fid
    · exact absurd hf hfid
    · rfl
  have hbeq : (pyStrip body == pyStrip row.content) = true := by
    rw [hbody]
    simp
  simp [legend_wait_text, hempty, hcid', hfid', hbeq]

/-- C9 witness: resubmitting the stored legend text (up to surrounding
whitespace) for a concrete registered group is a no-op. -/
theorem C9_legend_edit_noop_witness :
    (legend_wait_text true
      (legend_wait_female true (some (LegendFlow.waitFemale LegendMode.edit))
        [{ chat_id := 5, title := [], female_id := "9999999999".data }]
        [{ female_id := "9999999999".data, chat_id := 5, content := "hello".data,
           message_id := some 1 }] "9999999999".data).1
      [{ female_id := "9999999999".data, chat_id := 5, content := "hello".data,
         message_id := some 1 }] " hello ".data 2).legends =
      [{ female_id := "9999999999".data, chat_id := 5, content := "hello".data,
         message_id := some 1 }] ∧
    (legend_wait_text true
      (legend_wait_female true (some (LegendFlow.waitFemale LegendMode.edit))
        [{ chat_id := 5, title := [], female_id := "9999999999".data }]
        [{ female_id := "9999999999".data, chat_id := 5, content := "hello".data,
           message_id := some 1 }] "9999999999".data).1
      [{ female_id := "9999999999".data, chat_id := 5, content := "hello".data,
         message_id := some 1 }] " hello ".data 2).broadcast = none ∧
    (legend_wait_text true
      (legend_wait_female true (some (LegendFlow.waitFemale LegendMode.edit))
        [{ chat_id := 5, title := [], female_id := "9999999999".data }]
        [{ female_id := "9999999999".data, chat_id := 5, content := "hello".data,
           message_id := some 1 }] "9999999999".data).1
      [{ female_id := "9999999999".data, chat_id := 5, content := "hello".data,
         message_id := some 1 }] " hello ".data 2).reply =
      some LegendTextReply.unchanged :=
  C9_legend_edit_noop
    [{ chat_id := 5, title := [], female_id := "9999999999".data }]
    [{ female_id := "9999999999".data, chat_id := 5, content := "hello".data,
       message_id := some 1 }]
    "9999999999".data
    { chat_id := 5, title := [], female_id := "9999999999".data }
    { female_id := "9999999999".data, chat_id := 5, content := "hello".data,
      message_id := some 1 }
    " hello ".data 2 (by decide) (by decide) (by decide) (by decide) (by decide)
    (by decide)

/-! ## Claims C1 and C7: the quota and abuse guard -/

/-- Under a passed ban gate and a passed spacing gate, `handle_male_search`
(for a non-female-id input) reduces to the quota stage with the action time
recorded. -/
theorem hms_gates (st : GuardState) (isAdminU isAllowedU : Bool) (now : Int)
    (hban : ∀ b, st.ban = some b → b ≤ now)
    (hrate : ∀ l, st.last_action_ts = some l → 2 ≤ now - l) :
    handle_male_search st isAdminU isAllowedU false now =
      hms_afterRate { st with last_action_ts := some now } isAdminU isAllowedU now := by
  have hrl : rate_limit_allowed st.last_action_ts now 2 = (true, some now) := by
    unfold rate_limit_allowed
    cases hl : st.last_action_ts with
    | none => rfl
    | some l =>
      show (if now - l < 2 then ((false : Bool), some l) else ((true : Bool), some now)) =
        ((true : Bool), some now)
      rw [if_neg (by have := hrate l hl; omega)]
  have hab : hms_afterBan st isAdminU isAllowedU now =
      hms_afterRate { st with last_action_ts := some now } isAdminU isAllowedU now := by
    unfold hms_afterBan
    rw [hrl]
    rfl
  unfold handle_male_search
  rw [if_neg (by simp)]
  cases hb : st.ban with
  | none =>
    rw [hb] at hab
    exact hab
  | some b =>
    rw [hb] at hab
    have hnb : ¬(now < b) := by have := hban b hb; omega
    show (if now < b then (SearchOutcome.banned b, st)
      else hms_afterBan st isAdminU isAllowedU now) = _
    rw [if_neg hnb]
    exact hab

/-- C1 counterexample: a guest with 29 searches in the last minute passes the
ban, spacing and daily-quota gates (29 < 50); the 30th search crosses the
60-second threshold, and the handler replies with the ban notice — the
outcome is NOT the delivery of results, contradicting "that threshold-crossing
search itself still succeeds". -/
theorem C1_counterexample :
    (count_searches_since
        (List.replicate 29 { ts := 970, qtype := QueryType.male })
        (1000 - 86400) : Int) < 50 ∧
    30 ≤ count_searches_since
      (log_search (List.replicate 29 { ts := 970, qtype := QueryType.male })
        1000 QueryType.male) (1000 - 60) ∧
    (handle_male_search
      { searches := List.replicate 29 { ts := 970, qtype := QueryType.male },
        ban := none, last_action_ts := some 900, guest_limit_search := none }
      false false false 1000).1 = SearchOutcome.banned 1900 ∧
    (handle_male_search
      { searches := List.replicate 29 { ts := 970, qtype := QueryType.male },
        ban := none, last_action_ts := some 900, guest_limit_search := none }
      false false false 1000).1 ≠ SearchOutcome.results := by
  decide

/-- C1 (amended): for a non-admin actor whose just-logged search brings the
trailing-60-second search count to the 30 threshold (the ban, spacing and
daily-quota gates having passed), the guard logs the search first — it counts
toward the windows — and then sets the 15-minute ban; but the triggering
search's results are NOT delivered: the actor receives the ban notice. -/
theorem C1_autoban (st : GuardState) (isAllowedU : Bool) (now : Int)
    (hban : ∀ b, st.ban = some b → b ≤ now)
    (hrate : ∀ l, st.last_action_ts = some l → 2 ≤ now - l)
    (hq : (count_searches_since st.searches (now - 86400) : Int) <
      get_setting_int st.guest_limit_search 50)
    (hthresh : 30 ≤ count_searches_since
      (log_search st.searches now QueryType.male) (now - 60)) :
    (handle_male_search st false isAllowedU false now).1 =
      SearchOutcome.banned (now + 900) ∧
    (handle_male_search st false isAllowedU false now).2.ban = some (now + 900) ∧
    (handle_male_search st false isAllowedU false now).2.searches =
      log_search st.searches now QueryType.male ∧
    (handle_male_search st false isAllowedU false now).1 ≠ SearchOutcome.results := by
  rw [hms_gates st false isAllowedU now hban hrate]
  by_cases hA : isAllowedU = true
  · subst hA
    refine ⟨?_, ?_, ?_, ?_⟩ <;>
      simp [hms_afterRate, hms_afterQuota, hthresh]
  · have hA' : isAllowedU = false := bool_eq_false_of_ne_true hA
    subst hA'
    have hq' : ¬(get_setting_int st.guest_limit_search 50 ≤
        (count_searches_since st.searches (now - 86400) : Int)) := by omega
    refine ⟨?_, ?_, ?_, ?_⟩ <;>
      simp [hms_afterRate, hms_afterQuota, hq', hthresh]

/-- C1 witness: the counterexample state, through the amended theorem. -/
theorem C1_autoban_witness :
    (handle_male_search
      { searches := List.replicate 29 { ts := 970, qtype := QueryType.male },
        ban := none, last_action_ts := some 900, guest_limit_search := none }
      false false false 1000).1 = SearchOutcome.banned (1000 + 900) ∧
    (handle_male_search
      { searches := List.replicate 29 { ts := 970, qtype := QueryType.male },
        ban := none, last_action_ts := some 900, guest_limit_search := none }
      false false false 1000).2.ban = some (1000 + 900) ∧
    (handle_male_search
      { searches := List.replicate 29 { ts := 970, qtype := QueryType.male },
        ban := none, last_action_ts := some 900, guest_limit_search := none }
      false false false 1000).2.searches =
      log_search (List.replicate 29 { ts := 970, qtype := QueryType.male })
        1000 QueryType.male ∧
    (handle_male_search
      { searches := List.replicate 29 { ts := 970, qtype := QueryType.male },
        ban := none, last_action_ts := some 900, guest_limit_search := none }
      false false false 1000).1 ≠ SearchOutcome.results :=
  C1_autoban
    { searches := List.replicate 29 { ts := 970, qtype := QueryType.male },
      ban := none, last_action_ts := some 900, guest_limit_search := none }
    false 1000
    (by intro b hb; simp at hb)
    (by intro l hl; injection hl with h; omega)
    (by decide) (by decide)

/-- C7: for a non-privileged actor passing the ban and spacing gates and not
hitting the 60-second auto-ban threshold, the search is delivered iff the
trailing-24h search-kind count is strictly below the configured limit
(default 50), it is rejected with the quota notice iff the count has reached
the limit — so exactly `limit` searches inside a 24h window succeed and the
`limit+1`-th is rejected — and once every recorded search is at least 24h
old the counter is logically reset: the next search succeeds again. -/
theorem C7_daily_quota (st : GuardState) (now : Int)
    (hban : ∀ b, st.ban = some b → b ≤ now)
    (hrate : ∀ l, st.last_action_ts = some l → 2 ≤ now - l)
    (hnothresh : count_searches_since
      (log_search st.searches now QueryType.male) (now - 60) < 30) :
    ((handle_male_search st false false false now).1 = SearchOutcome.results ↔
      (count_searches_since st.searches (now - 86400) : Int) <
        get_setting_int st.guest_limit_search 50) ∧
    ((handle_male_search st false false false now).1 =
        SearchOutcome.quotaExceeded (get_setting_int st.guest_limit_search 50) ↔
      get_setting_int st.guest_limit_search 50 ≤
        (count_searches_since st.searches (now - 86400) : Int)) ∧
    ((∀ e ∈ st.searches, e.ts ≤ now - 86400) →
      0 < get_setting_int st.guest_limit_search 50 →
      (handle_male_search st false false false now).1 = SearchOutcome.results) := by
  rw [hms_gates st false false now hban hrate]
  have h60 : ¬(30 ≤ count_searches_since
      (log_search st.searches now QueryType.male) (now - 60)) := by omega
  by_cases hq : get_setting_int st.guest_limit_search 50 ≤
      (count_searches_since st.searches (now - 86400) : Int)
  · have hv : hms_afterRate { st with last_action_ts := some now } false false now =
        (SearchOutcome.quotaExceeded (get_setting_int st.guest_limit_search 50),
         { st with last_action_ts := some now }) := by
      simp [hms_afterRate, hms_afterQuota, hq]
    rw [hv]
    refine ⟨⟨fun h => by simp at h, fun h => absurd hq (by omega)⟩,
            ⟨fun _ => hq, fun _ => rfl⟩, ?_⟩
    intro hold hpos
    have hzero : count_searches_since st.searches (now - 86400) = 0 := by
      unfold count_searches_since
      rw [List.length_eq_zero, List.filter_eq_nil_iff]
      intro e he
      have := hold e he
      simp only [Bool.and_eq_true, decide_eq_true_eq, not_and]
      intro _
      omega
    rw [hzero] at hq
    simp at hq
    exact absurd hpos (by omega)
  · have hv : hms_afterRate { st with last_action_ts := some now } false false now =
        (SearchOutcome.results,
         { st with searches := log_search st.searches now QueryType.male,
                   last_action_ts := some now }) := by
      simp [hms_afterRate, hms_afterQuota, hq, h60]
    rw [hv]
    refine ⟨⟨fun _ => by omega, fun _ => rfl⟩,
            ⟨fun h => by simp at h, fun h => absurd h hq⟩,
            fun _ _ => rfl⟩

/-- C7 witness: a fresh guest (no recorded searches, default limit 50) is
below quota, not at quota, and succeeds. -/
theorem C7_daily_quota_witness :
    ((handle_male_search
        { searches := [], ban := none, last_action_ts := none,
          guest_limit_search := none } false false false 1000).1 =
        SearchOutcome.results ↔
      (count_searches_since ([] : List SearchEv) (1000 - 86400) : Int) <
        get_setting_int none 50) ∧
    ((handle_male_search
        { searches := [], ban := none, last_action_ts := none,
          guest_limit_search := none } false false false 1000).1 =
        SearchOutcome.quotaExceeded (get_setting_int none 50) ↔
      get_setting_int none 50 ≤
        (count_searches_since ([] : List SearchEv) (1000 - 86400) : Int)) ∧
    ((∀ e ∈ ([] : List SearchEv), e.ts ≤ 1000 - 86400) →
      0 < get_setting_int none 50 →
      (handle_male_search
        { searches := [], ban := none, last_action_ts := none,
          guest_limit_search := none } false false false 1000).1 =
        SearchOutcome.results) :=
  C7_daily_quota
    { searches := [], ban := none, last_action_ts := none,
      guest_limit_search := none } 1000
    (by intro b hb; simp at hb)
    (by intro l hl; simp at hl)
    (by decide)

/-! ## Claim C6: continuation cursor round trip -/

theorem splitColonAux_nocolon (a : List Char) :
    ∀ (s acc : List Char), (∀ c ∈ a, (c == ':') = false) →
      splitColonAux (a ++ s) acc = splitColonAux s (a.reverse ++ acc) := by
  induction a with
  | nil => intro s acc _; simp
  | cons x xs ih =>
    intro s acc h
    have hx : (x == ':') = false := h x (by simp)
    show splitColonAux (x :: (xs ++ s)) acc = _
    rw [show splitColonAux (x :: (xs ++ s)) acc =
          splitColonAux (xs ++ s) (x :: acc) by simp [splitColonAux, hx],
        ih s (x :: acc) (fun c hc => h c (by simp [hc]))]
    simp

theorem splitColon_nocolon_chunk (a s : List Char)
    (h : ∀ c ∈ a, (c == ':') = false) :
    splitColon (a ++ ':' :: s) = a :: splitColon s := by
  unfold splitColon
  rw [splitColonAux_nocolon a (':' :: s) [] h,
      show splitColonAux (':' :: s) (a.reverse ++ []) =
        (a.reverse ++ []).reverse :: splitColonAux s [] by simp [splitColonAux]]
  simp

theorem splitColon_nocolon (a : List Char) (h : ∀ c ∈ a, (c == ':') = false) :
    splitColon a = [a] := by
  unfold splitColon
  have h1 : splitColonAux a [] = splitColonAux ([] : List Char) (a.reverse ++ []) := by
    rw [← splitColonAux_nocolon a [] [] h, List.append_nil]
  rw [h1]
  simp [splitColonAux]

theorem decDigit_facts : ∀ d < 10, (decDigitChar d).isDigit = true ∧
    charVal (decDigitChar d) = d ∧ ((decDigitChar d) == ':') = false := by
  decide

theorem natCharsAux_eq (fuel : Nat) : ∀ n, n ≤ fuel →
    natCharsAux fuel n = (Nat.digits 10 n).map decDigitChar := by
  induction fuel with
  | zero =>
    intro n hn
    have h0 : n = 0 := Nat.le_zero.mp hn
    subst h0
    simp [natCharsAux]
  | succ f ih =>
    intro n hn
    by_cases h0 : n = 0
    · subst h0; simp [natCharsAux]
    · have hd : Nat.digits 10 n = n % 10 :: Nat.digits 10 (n / 10) :=
        Nat.digits_def' (by norm_num : (1 : Nat) < 10) (Nat.pos_of_ne_zero h0)
      rw [show natCharsAux (f + 1) n =
            decDigitChar (n % 10) :: natCharsAux f (n / 10) by
            simp [natCharsAux, h0],
          hd, List.map_cons]
      congr 1
      apply ih
      have hlt : n / 10 < n := Nat.div_lt_self (Nat.pos_of_ne_zero h0) (by norm_num)
      omega

theorem natChars_eq (n : Nat) (h : n ≠ 0) :
    natChars n = ((Nat.digits 10 n).map decDigitChar).reverse := by
  unfold natChars
  rw [if_neg h, natCharsAux_eq n n (Nat.le_refl n)]

theorem foldr_ofDigits : ∀ ds : List Nat,
    ds.foldr (fun d a => a * 10 + d) 0 = Nat.ofDigits 10 ds := by
  intro ds
  induction ds with
  | nil => simp [Nat.ofDigits]
  | cons d t ih =>
    simp only [List.foldr_cons, Nat.ofDigits_cons, ih]
    ring

theorem foldr_charVal (ds : List Nat) (h : ∀ d ∈ ds, d < 10) :
    ds.foldr (fun d a => a * 10 + charVal (decDigitChar d)) 0 =
      ds.foldr (fun d a => a * 10 + d) 0 := by
  induction ds with
  | nil => rfl
  | cons d t ih =>
    simp only [List.foldr_cons]
    rw [ih (fun x hx => h x (by simp [hx])),
        (decDigit_facts d (h d (by simp))).2.1]

theorem natChars_digits (n : Nat) : ∀ c ∈ natChars n, c.isDigit = true := by
  by_cases h0 : n = 0
  · subst h0
    intro c hc
    rw [show natChars 0 = ['0'] from rfl] at hc
    simp at hc
    rw [hc]
    decide
  · rw [natChars_eq n h0]
    intro c hc
    rw [List.mem_reverse] at hc
    rcases List.mem_map.mp hc with ⟨d, hd, rfl⟩
    exact (decDigit_facts d (Nat.digits_lt_base (by norm_num) hd)).1

theorem parseNat_natChars (n : Nat) : parseNat (natChars n) = some n := by
  by_cases h0 : n = 0
  · subst h0; decide
  · rw [natChars_eq n h0]
    unfold parseNat
    have hne : Nat.digits 10 n ≠ [] := Nat.digits_ne_nil_iff_ne_zero.mpr h0
    have hlne : (((Nat.digits 10 n).map decDigitChar).reverse) ≠ [] := by
      simp [hne]
    have hisEmpty : (((Nat.digits 10 n).map decDigitChar).reverse).isEmpty = false := by
      cases hl : ((Nat.digits 10 n).map decDigitChar).reverse
      · exact absurd hl hlne
      · rfl
    have hall : (((Nat.digits 10 n).map decDigitChar).reverse).all Char.isDigit = true := by
      rw [List.all_eq_true]
      intro c hc
      rw [List.mem_reverse] at hc
      rcases List.mem_map.mp hc with ⟨d, hd, rfl⟩
      exact (decDigit_facts d (Nat.digits_lt_base (by norm_num) hd)).1
    rw [if_neg (by rw [hisEmpty]; simp), if_pos hall]
    congr 1
    rw [List.foldl_reverse, List.foldr_map,
        foldr_charVal (Nat.digits 10 n) (fun d hd =>
          Nat.digits_lt_base (by norm_num) hd),
        foldr_ofDigits, Nat.ofDigits_digits]

theorem isDigit_ne_colon {c : Char} (h : c.isDigit = true) : (c == ':') = false := by
  by_cases hc : (c == ':') = true
  · have hce : c = ':' := eq_of_beq hc
    rw [hce] at h
    exact absurd h (by decide)
  · exact bool_eq_false_of_ne_true hc

/-- C6: parsing the echoed "more" payload recovers exactly the subject,
offset, group filter (with `-` decoding to no filter), time filter and
capability flag that were encoded — a stateless round trip. -/
theorem C6_cursor_roundtrip (c : Cursor)
    (hs : c.subject.length = 10 ∧ ∀ x ∈ c.subject, x.isDigit = true)
    (hf : ∀ f, c.female_filter = some f →
      f.length = 10 ∧ ∀ x ∈ f, x.isDigit = true)
    (ht : c.time_filter = "all".data ∨ c.time_filter = "24h".data) :
    cb_more_parse (encode_more c) = some c := by
  obtain ⟨subject, off, ff, tf, allow⟩ := c
  have hs' : subject.length = 10 ∧ ∀ x ∈ subject, x.isDigit = true := hs
  have hf' : ∀ f, ff = some f → f.length = 10 ∧ ∀ x ∈ f, x.isDigit = true := hf
  have ht' : tf = "all".data ∨ tf = "24h".data := ht
  have hsub : ∀ x ∈ subject, (x == ':') = false :=
    fun x hx => isDigit_ne_colon (hs'.2 x hx)
  have hmore : ∀ x ∈ ['m', 'o', 'r', 'e'], (x == ':') = false := by decide
  have hoff : ∀ x ∈ natChars off, (x == ':') = false :=
    fun x hx => isDigit_ne_colon (natChars_digits off x hx)
  have htok : ∀ x ∈ (match ff with | some f => f | none => ['-']),
      (x == ':') = false := by
    cases ff with
    | none =>
      intro x hx
      simp at hx
      rw [hx]
      decide
    | some f =>
      intro x hx
      exact isDigit_ne_colon ((hf' f rfl).2 x hx)
  have htf : ∀ x ∈ tf, (x == ':') = false := by
    rcases ht' with h | h <;> rw [h] <;> decide
  have hflag : ∀ x ∈ [if allow then '1' else '0'], (x == ':') = false := by
    cases allow <;> decide
  have hsplit : splitColon (encode_more ⟨subject, off, ff, tf, allow⟩) =
      [['m', 'o', 'r', 'e'], subject, natChars off,
       (match ff with | some f => f | none => ['-']), tf,
       [if allow then '1' else '0']] := by
    unfold encode_more
    rw [splitColon_nocolon_chunk _ _ hmore,
        splitColon_nocolon_chunk _ _ hsub,
        splitColon_nocolon_chunk _ _ hoff,
        splitColon_nocolon_chunk _ _ htok,
        splitColon_nocolon_chunk _ _ htf,
        splitColon_nocolon _ hflag]
  cases ff with
  | none =>
    cases allow <;>
      simp [cb_more_parse, hsplit, parseNat_natChars off]
  | some f =>
    have hfne : (f == ['-']) = false := by
      have h10 : f.length = 10 := (hf' f rfl).1
      by_cases hb : (f == ['-']) = true
      · have := eq_of_beq hb
        rw [this] at h10
        simp at h10
      · exact bool_eq_false_of_ne_true hb
    cases allow <;>
      simp [cb_more_parse, hsplit, parseNat_natChars off, hfne]

/-- C6 witness: a concrete cursor with a group filter, the 24h window and the
capability flag cleared survives the round trip. -/
theorem C6_cursor_roundtrip_witness :
    cb_more_parse (encode_more
      { subject := "1234567890".data, offset := 5,
        female_filter := some "9876543210".data,
        time_filter := "24h".data, allow_filters := false }) = some
      { subject := "1234567890".data, offset := 5,
        female_filter := some "9876543210".data,
        time_filter := "24h".data, allow_filters := false } :=
  C6_cursor_roundtrip
    { subject := "1234567890".data, offset := 5,
      female_filter := some "9876543210".data,
      time_filter := "24h".data, allow_filters := false }
    ⟨by decide, by decide⟩
    (by
      intro f h
      cases h
      exact ⟨by decide, by decide⟩)
    (Or.inr rfl)

/-! ## Claim C3: ordering and pagination of search results -/

/-- C3: search results are ordered by timestamp descending with ties broken
by the stable insertion id ascending (the tie rule is modelled from the spec,
see `resultOrder`); the page of 5 at offset 0 and the page of 5 at offset 5
are disjoint, and their concatenation is exactly the single query with
limit 10 at offset 0 (contiguous slices of one ordered result list). -/
theorem C3_pagination (s : DbState) (male : List Char) (ff : Option (List Char))
    (since : Option Int)
    (hids : s.messages.Pairwise (fun a b => a.id ≠ b.id)) :
    search_by_male s male 5 0 ff since ++ search_by_male s male 5 5 ff since =
      search_by_male s male 10 0 ff since ∧
    List.Pairwise resultOrder (search_by_male s male 10 0 ff since) ∧
    ∀ x ∈ search_by_male s male 5 0 ff since,
      x ∉ search_by_male s male 5 5 ff since := by
  have hsorted : List.Pairwise resultOrder
      (List.insertionSort resultOrder
        (s.messages.filter (matchesSearch s male ff since))) :=
    List.sorted_insertionSort resultOrder _
  have hnodup : (List.insertionSort resultOrder
      (s.messages.filter (matchesSearch s male ff since))).Nodup := by
    apply (List.perm_insertionSort resultOrder _).nodup_iff.mpr
    apply List.Nodup.filter
    exact List.Pairwise.imp (fun hne he => hne (by rw [he])) hids
  refine ⟨?_, ?_, ?_⟩
  · unfold search_by_male
    rw [List.drop_zero, show (10 : Nat) = 5 + 5 from rfl, List.take_add]
  · unfold search_by_male
    rw [List.drop_zero]
    exact hsorted.sublist (List.take_sublist _ _)
  · intro x hx0 hx5
    unfold search_by_male at hx0 hx5
    rw [List.drop_zero] at hx0
    have hdisj := List.disjoint_take_drop hnodup (Nat.le_refl 5)
    exact hdisj hx0 (List.take_subset 5 _ hx5)

/-- C3 witness: two linked messages with distinct timestamps; the first page
holds both (newest first), the second page is empty, and their concatenation
is the limit-10 query. -/
theorem C3_pagination_witness :
    search_by_male
        { messages := [{ id := 1, chat_id := 5, message_id := 1, date := 10,
                         text := [] },
                       { id := 2, chat_id := 5, message_id := 2, date := 20,
                         text := [] }],
          links := [(1, "1234567890".data), (2, "1234567890".data)],
          chats := [{ chat_id := 5, title := [],
                      female_id := "9999999999".data }] }
        "1234567890".data 5 0 none none ++
      search_by_male
        { messages := [{ id := 1, chat_id := 5, message_id := 1, date := 10,
                         text := [] },
                       { id := 2, chat_id := 5, message_id := 2, date := 20,
                         text := [] }],
          links := [(1, "1234567890".data), (2, "1234567890".data)],
          chats := [{ chat_id := 5, title := [],
                      female_id := "9999999999".data }] }
        "1234567890".data 5 5 none none =
      search_by_male
        { messages := [{ id := 1, chat_id := 5, message_id := 1, date := 10,
                         text := [] },
                       { id := 2, chat_id := 5, message_id := 2, date := 20,
                         text := [] }],
          links := [(1, "1234567890".data), (2, "1234567890".data)],
          chats := [{ chat_id := 5, title := [],
                      female_id := "9999999999".data }] }
        "1234567890".data 10 0 none none ∧
    List.Pairwise resultOrder
      (search_by_male
        { messages := [{ id := 1, chat_id := 5, message_id := 1, date := 10,
                         text := [] },
                       { id := 2, chat_id := 5, message_id := 2, date := 20,
                         text := [] }],
          links := [(1, "1234567890".data), (2, "1234567890".data)],
          chats := [{ chat_id := 5, title := [],
                      female_id := "9999999999".data }] }
        "1234567890".data 10 0 none none) ∧
    ∀ x ∈ search_by_male
        { messages := [{ id := 1, chat_id := 5, message_id := 1, date := 10,
                         text := [] },
                       { id := 2, chat_id := 5, message_id := 2, date := 20,
                         text := [] }],
          links := [(1, "1234567890".data), (2, "1234567890".data)],
          chats := [{ chat_id := 5, title := [],
                      female_id := "9999999999".data }] }
        "1234567890".data 5 0 none none,
      x ∉ search_by_male
        { messages := [{ id := 1, chat_id := 5, message_id := 1, date := 10,
                         text := [] },
                       { id := 2, chat_id := 5, message_id := 2, date := 20,
                         text := [] }],
          links := [(1, "1234567890".data), (2, "1234567890".data)],
          chats := [{ chat_id := 5, title := [],
                      female_id := "9999999999".data }] }
        "1234567890".data 5 5 none none :=
  C3_pagination
    { messages := [{ id := 1, chat_id := 5, message_id := 1, date := 10,
                     text := [] },
                   { id := 2, chat_id := 5, message_id := 2, date := 20,
                     text := [] }],
      links := [(1, "1234567890".data), (2, "1234567890".data)],
      chats := [{ chat_id := 5, title := [], female_id := "9999999999".data }] }
    "1234567890".data none none (by decide)

end TgIdBot
